import Mathlib

/-!
Verification of the spatial comfort interpolation pipeline of
`LadybugTools_Toolkit` (`external_comfort/spatial.py` and
`ladybugtools_toolkit/helpers.py`), as a shallow embedding over exact
rationals.  Machine floats in the source are modelled by `ℚ`; numpy NaN
values (which the source suppresses with `np.errstate` and later fills
with `DataFrame.interpolate`) are modelled by `Option ℚ` with `none` as
NaN.  Functions from external scientific libraries (ladybug
psychrometrics, ladybug-comfort UTCI) are taken as parameters.
-/

namespace LBT

/-! ### Generic list helpers used by the embedding -/

/-- Elementwise combination of four lists, truncating at the shortest,
mirroring iteration over `zip(*[a, b, c, d])` in the source. -/
def zipWith4 (f : α → β → γ → δ → ε) : List α → List β → List γ → List δ → List ε
  | a :: as, b :: bs, c :: cs, d :: ds => f a b c d :: zipWith4 f as bs cs ds
  | _, _, _, _ => []

/-- Maximum of a list of rationals, mirroring `np.amax` over one axis;
`np.amax` of an empty array is an error, modelled by `none`. -/
def listMax : List ℚ → Option ℚ
  | [] => none
  | x :: xs => some (xs.foldl max x)

/-- Minimum of a list of rationals, mirroring `np.min`/`groupby(...).min()`
over one axis; empty input is an error, modelled by `none`. -/
def listMin : List ℚ → Option ℚ
  | [] => none
  | x :: xs => some (xs.foldl min x)

/-- All-or-nothing elementwise evaluation: the per-source moisture matrices
are built one source at a time, and a failure for any source aborts the
whole computation. -/
def mapOption (f : α → Option β) : List α → Option (List β)
  | [] => some []
  | x :: xs =>
    match f x, mapOption f xs with
    | some y, some ys => some (y :: ys)
    | _, _ => none

/-! ### Radial decay (`SpatialComfortResult._distribute`)

The source normalizes the distance with
`np.interp(distance, [0, max_distance], [0, 1])` (which clamps outside the
interval) and then applies a decay curve.  Only the `"linear"` and
`"parabolic"` curves are embedded; the `"sigmoid"` branch is transcendental
(`np.sin`) and is not reached by the moisture pipeline, which always passes
`"parabolic"`. -/

/-- The clamped linear normalization `np.interp(distance, [0, max_distance], [0, 1])`. -/
def interpUnit (distance max_distance : ℚ) : ℚ :=
  if distance ≤ 0 then 0
  else if max_distance ≤ distance then 1
  else distance / max_distance

/-- Decay-curve selector of `_distribute` (the transcendental sigmoid branch
is omitted, see section comment). -/
inductive CurveType
  | linear
  | parabolic
deriving DecidableEq

/-- Embedding of `SpatialComfortResult._distribute`: the decayed value
distributed from distance 0 out to `max_distance`. -/
def distribute (magnitude distance max_distance : ℚ) (curve : CurveType) : ℚ :=
  let d := interpUnit distance max_distance
  match curve with
  | .linear => (1 - d) * magnitude
  | .parabolic => (-(d ^ 2) + 1) * magnitude

/-! ### Moisture plume construction (`moisture_source_matrix_unique`)

For one unique wind state `(ws, wd)` and one moisture source, the source
computes a radial magnitude per (grid point, source point) pair and an
angular mask per pair, takes the masked magnitude, and reduces with
`np.amax` over the source points (axis 1).  Across sources it reduces with
`np.amax` over the per-source matrices (axis 0).  Distances and bearings
between points are produced upstream by `np.linalg.norm` and
`_angle_from_north` (transcendental geometry); the embedding takes them as
inputs, with bearings in `[0, 360)` as produced by `_angle_from_north`. -/

/-- Embedding of the radial part: `magnitude_matrix_local` of
`moisture_source_matrix_unique`, with
`distance_around_sources_in_calm_wind = 5` and
`wind_speed_multiplier_for_distances = 10`. -/
def magnitude_matrix_local (ws mag dist : ℚ) : ℚ :=
  if ws = 0 then distribute mag dist 5 .parabolic
  else distribute mag dist (ws * 10) .parabolic

/-- Embedding of the angular gate `angle_mask_local` of
`moisture_source_matrix_unique`, for one bearing `b` from a source point to
a grid point.  `plume_buffer = angle_width / 2 = 6`.  The expression
`wd - 360 - wd` is copied verbatim from the source (it evaluates to
`-360`). -/
def angle_mask_local (ws wd b : ℚ) : Bool :=
  let plume_buffer : ℚ := 12 / 2
  if ws = 0 then true
  else if wd > 360 - plume_buffer then
    decide (b > wd - plume_buffer) || decide (b < wd - 360 - wd)
  else if wd < 0 + plume_buffer then
    decide (b < wd + plume_buffer) || decide (b > 360 + wd - plume_buffer)
  else
    decide (b < wd + plume_buffer) && decide (b > wd - plume_buffer)

/-- The angular gate as the specification words it: the mask passes when the
wind speed is zero, or when the bearing lies within 6 degrees of the wind
direction measured circularly (wrap-around across 0/360), inclusive at the
boundary.  Stated for comparison with `angle_mask_local`. -/
def spec_angular_pass (ws wd b : ℚ) : Prop :=
  ws = 0 ∨ min |b - wd| (360 - |b - wd|) ≤ 6

instance (ws wd b : ℚ) : Decidable (spec_angular_pass ws wd b) := by
  unfold spec_angular_pass; infer_instance

/-- One moisture source, as the plume computation sees it at a fixed grid
point: its scalar magnitude and, for each of its source points, the
distance and bearing from that source point to the grid point. -/
abbrev MSource := ℚ × List (ℚ × ℚ)

/-- Per grid point effectiveness of one moisture source at one wind state:
`np.amax(np.where(angle_mask_local, magnitude_matrix_local, 0), axis=1)`,
the maximum over the source points of the masked radial magnitude. -/
def source_effectiveness (ws wd mag : ℚ) (distBearings : List (ℚ × ℚ)) : Option ℚ :=
  listMax (distBearings.map (fun db =>
    if angle_mask_local ws wd db.2 then magnitude_matrix_local ws mag db.1 else 0))

/-- Per grid point effectiveness combined across moisture sources:
`np.amax(moisture_source_matrices, axis=0)`, the pointwise maximum over the
per-source values. -/
def combined_effectiveness (ws wd : ℚ) (sources : List MSource) : Option ℚ :=
  (mapOption (fun s => source_effectiveness ws wd s.1 s.2) sources).bind listMax

/-- Expansion of the per-wind-state field back to all hours:
`moisture_source_matrix_unique[wind_speed_direction_indices]` indexes one
precomputed row per hour. -/
def moisture_matrix_from_unique (uniqueRows : List (List ℚ)) (indices : List ℕ) :
    List (List ℚ) :=
  indices.map (fun i => uniqueRows.getD i [])

/-! ### MRT interpolation (`SpatialComfortResult._interpolate_between_unshaded_shaded`)

The source builds, per hour and grid point, a raw interpolated value:

* sun-up hours: the irradiance of the point at that hour is renormalized
  from the range `[row minimum, row maximum]` of the irradiance of all
  points at that hour (`groupby(axis=1).min()` / `.max()` of the sun-up
  rows) onto `[min(shaded, unshaded), max(shaded, unshaded)]` for that
  hour; a degenerate irradiance range gives `0/0 = NaN` under
  `np.errstate(divide="ignore", invalid="ignore")`, modelled by `none`;
* sun-down hours: `interp1d([0, 100], [shaded, unshaded])` evaluated at the
  static sky view of the point, i.e. the linear blend from the shaded value
  at sky view 0 to the unshaded value at sky view 100 (`interp1d` raises
  outside `[0, 100]`; theorems carry that bound as a hypothesis).

The two parts are concatenated and sorted back into hour order
(`raw_interpolated` below), then postprocessed columnwise with
`.interpolate()` (linear fill of NaN along the hour axis) and
`.ewm(span=1.5).mean()` applied to every hour. -/

/-- The raw interpolated matrix (hours as rows, grid points as columns):
the value of `pd.concat([nighttime, daytime], axis=0).sort_index()` in
`_interpolate_between_unshaded_shaded`, before `.interpolate()` and the
exponentially weighted mean.  `sunUp` is the `sun_up_bool` argument. -/
def raw_interpolated (unshaded shaded : List ℚ) (irr : List (List ℚ))
    (skyView : List ℚ) (sunUp : List Bool) : List (List (Option ℚ)) :=
  zipWith4 (fun u s irrRow up =>
    if up then
      match listMin irrRow, listMax irrRow with
      | some lo, some hi =>
        irrRow.map (fun v =>
          if hi = lo then none
          else some ((v - lo) / (hi - lo) * (max s u - min s u) + min s u))
      | _, _ => []
    else
      skyView.map (fun sv => some (s + sv / 100 * (u - s))))
    unshaded shaded irr sunUp

/-- Linear fill of NaN entries along one column, mirroring pandas
`DataFrame.interpolate()` with the default linear method and forward limit
direction: leading NaNs are kept, an interior NaN is the linear
interpolation between the nearest defined values by position, and a
trailing NaN takes the last defined value. -/
def lastValidBefore (col : List (Option ℚ)) (i : ℕ) : Option (ℕ × ℚ) :=
  ((col.take i).enum.filterMap (fun jx => jx.2.map (fun v => (jx.1, v)))).getLast?

/-- First defined entry strictly after position `i` in a column. -/
def firstValidAfter (col : List (Option ℚ)) (i : ℕ) : Option (ℕ × ℚ) :=
  ((col.enum.drop (i + 1)).filterMap (fun jx => jx.2.map (fun v => (jx.1, v)))).head?

/-- Columnwise `DataFrame.interpolate()` (see `lastValidBefore`). -/
def interpolate_na (col : List (Option ℚ)) : List (Option ℚ) :=
  col.enum.map (fun ix =>
    match ix.2 with
    | some x => some x
    | none =>
      match lastValidBefore col ix.1, firstValidAfter col ix.1 with
      | some jp, some kq =>
        some (jp.2 + (kq.2 - jp.2) * (((ix.1 : ℚ)) - (jp.1 : ℚ)) / ((kq.1 : ℚ) - (jp.1 : ℚ)))
      | some jp, none => some jp.2
      | none, _ => none)

/-- State step of the pandas exponentially weighted mean with
`span = 1.5`, hence `alpha = 2 / (span + 1) = 4 / 5` and decay factor
`1 - alpha = 1 / 5`, with the default `adjust=True` and `ignore_na=False`:
the running weighted numerator and denominator both decay by `1 / 5` per
row, and a defined entry contributes its value with weight 1. -/
def ewm_go (num den : ℚ) : List (Option ℚ) → List (Option ℚ)
  | [] => []
  | x :: rest =>
    let num2 := num * (1 / 5) + (match x with | some v => v | none => 0)
    let den2 := den * (1 / 5) + (match x with | some _ => (1 : ℚ) | none => 0)
    (if den2 = 0 then none else some (num2 / den2)) :: ewm_go num2 den2 rest

/-- Columnwise `.ewm(span=1.5).mean()` of the source. -/
def ewm_mean_col (col : List (Option ℚ)) : List (Option ℚ) :=
  ewm_go 0 0 col

/-- Column `p` of an hours-by-points matrix. -/
def columnOf (m : List (List (Option ℚ))) (p : ℕ) : List (Option ℚ) :=
  m.map (fun row => row.getD p none)

/-- Embedding of `_interpolate_between_unshaded_shaded`: the raw
interpolated matrix, postprocessed columnwise (per grid point) by NaN
interpolation and the span-1.5 exponentially weighted mean, as in
`.sort_index().interpolate().ewm(span=1.5).mean()`, reassembled in row
(hour) major order. -/
def interpolate_between_unshaded_shaded (unshaded shaded : List ℚ)
    (irr : List (List ℚ)) (skyView : List ℚ) (sunUp : List Bool) :
    List (List (Option ℚ)) :=
  let raw := raw_interpolated unshaded shaded irr skyView sunUp
  let cols := (List.range (raw.headD []).length).map
    (fun p => ewm_mean_col (interpolate_na (columnOf raw p)))
  (List.range raw.length).map (fun h => cols.map (fun col => col.getD h none))

/-- Entry accessor for an hours-by-points matrix with possibly undefined
entries. -/
def matEntry (m : List (List (Option ℚ))) (h p : ℕ) : Option ℚ :=
  (m.getD h []).getD p none

/-! ### Derived matrix accessors and their cache discipline

Each accessor is modelled as a function of the current contents of its
named cache file (`none` when the file is absent) and of its computation
inputs, returning the Python return value together with the cache file
contents after the call.  Matrices without NaN entries are
`List (List ℚ)`.  The `float16` casts of the source are a floating point
storage concern and are not modelled. -/

/-- Broadcast of an hourly series identically to every grid point:
`np.repeat([series], [n_points], axis=0).T`. -/
def broadcast_series (series : List ℚ) (nPts : ℕ) : List (List ℚ) :=
  series.map (fun v => List.replicate nPts v)

/-- Embedding of the `mean_radiant_temperature_matrix` accessor: load and
return the cache file verbatim when present, otherwise compute with
`_interpolate_between_unshaded_shaded` (with `sun_up_bool` taken from
`global_horizontal_radiation > 0`) and persist the result. -/
def mean_radiant_temperature_matrix (cache : Option (List (List (Option ℚ))))
    (unshaded shaded : List ℚ) (irr : List (List ℚ)) (skyView : List ℚ)
    (ghr : List ℚ) : List (List (Option ℚ)) × Option (List (List (Option ℚ))) :=
  match cache with
  | some m => (m, some m)
  | none =>
    let mrt := interpolate_between_unshaded_shaded unshaded shaded irr skyView
      (ghr.map (fun g => decide (g > 0)))
    (mrt, some mrt)

/-- Embedding of the `dry_bulb_temperature_matrix` accessor.  With a cache
file present it loads and returns it; with no cache and no moisture
sources it computes the broadcast matrix, writes it to the cache file, and
falls off the end of the branch without a `return`, so the Python value is
`None` (`none` here); otherwise it returns the moisture-adjusted matrix
from `spatial_moisture_properties` (taken as the parameter
`moistureDbt`). -/
def dry_bulb_temperature_matrix (cache : Option (List (List ℚ))) (nSources : ℕ)
    (dbtSeries : List ℚ) (nPts : ℕ) (moistureDbt : List (List ℚ)) :
    Option (List (List ℚ)) × Option (List (List ℚ)) :=
  match cache with
  | some m => (some m, some m)
  | none =>
    if nSources = 0 then (none, some (broadcast_series dbtSeries nPts))
    else (some moistureDbt, some moistureDbt)

/-- Embedding of the `relative_humidity_matrix` accessor; structurally
identical to `dry_bulb_temperature_matrix`, including the missing `return`
in the no-moisture-sources branch. -/
def relative_humidity_matrix (cache : Option (List (List ℚ))) (nSources : ℕ)
    (rhSeries : List ℚ) (nPts : ℕ) (moistureRh : List (List ℚ)) :
    Option (List (List ℚ)) × Option (List (List ℚ)) :=
  match cache with
  | some m => (some m, some m)
  | none =>
    if nSources = 0 then (none, some (broadcast_series rhSeries nPts))
    else (some moistureRh, some moistureRh)

/-- Embedding of the `wind_speed_matrix` accessor.  The source never reads
`save_path` before writing: it always recomputes the broadcast matrix and
overwrites the cache file, whatever the file held. -/
def wind_speed_matrix (cache : Option (List (List ℚ))) (wsSeries : List ℚ)
    (nPts : ℕ) : List (List ℚ) × Option (List (List ℚ)) :=
  let ws := broadcast_series wsSeries nPts
  (ws, some ws)

/-- Embedding of the `universal_thermal_climate_index_matrix` accessor:
load the cache verbatim when present, otherwise apply the vectorized UTCI
function (external `ladybug_comfort.utci`, taken as the parameter `utci`)
elementwise over the four aligned matrices and persist the result. -/
def universal_thermal_climate_index_matrix (cache : Option (List (List ℚ)))
    (utci : ℚ → ℚ → ℚ → ℚ → ℚ) (dbt mrt ws rh : List (List ℚ)) :
    List (List ℚ) × Option (List (List ℚ)) :=
  match cache with
  | some m => (m, some m)
  | none =>
    let u := zipWith4 (fun r1 r2 r3 r4 => zipWith4 utci r1 r2 r3 r4) dbt mrt ws rh
    (u, some u)

/-! ### Evaporative cooling effect (`ladybugtools_toolkit/helpers.py`)

`wet_bulb_from_db_rh` is `ladybug.psychrometrics`, an external
collaborator; the embedding takes it as the function parameter `wbt`. -/

/-- Embedding of `helpers.evaporative_cooling_effect`: the default
atmospheric pressure is 101325 Pa; the adjusted pair is
`(dbt - (dbt - wb) * e, rh * (1 - e) + e * 100)` clamped to
`(wb, 100)` when the adjusted relative humidity exceeds 100. -/
def evaporative_cooling_effect (wbt : ℚ → ℚ → ℚ → ℚ) (dbt rh e : ℚ)
    (pressure : Option ℚ) : ℚ × ℚ :=
  let atm := pressure.getD 101325
  let wb := wbt dbt rh atm
  let new_dbt := dbt - (dbt - wb) * e
  let new_rh := rh * (1 - e) + e * 100
  if new_rh > 100 then (wb, 100) else (new_dbt, new_rh)

/-! ### Moisture source loading (`SpatialComfort._load_moisture_sources`)

`MoistureSource.from_json` itself is not part of the sources under
verification; per the specification it reads a JSON sidecar file and a
missing file raises `FileNotFoundError`, modelled here by a `none` file
content.  The loader catches exactly `FileNotFoundError`, emits a warning
(modelled by the boolean in the result) and returns the empty list; a file
that parses to an empty list raises `ValueError`, which is not caught. -/

/-- Embedding of `SpatialComfort._load_moisture_sources`.  The result is
`Except` over (warning-emitted flag, loaded sources). -/
def load_moisture_sources (fileContents : Option (List MSource)) :
    Except String (Bool × List MSource) :=
  match fileContents with
  | none => .ok (true, [])
  | some srcs =>
    if srcs.length = 0 then .error "No moisture sources found" else .ok (false, srcs)

/-! ### Helper lemmas -/

lemma foldl_max_mem (x : ℚ) (xs : List ℚ) : xs.foldl max x ∈ x :: xs := by
  induction xs generalizing x with
  | nil => simp [List.foldl]
  | cons y ys ih =>
    have h := ih (max x y)
    rcases max_choice x y with hm | hm <;>
      rw [hm] at h <;> simp only [List.foldl] <;> rw [hm] <;>
      rcases List.mem_cons.mp h with h' | h' <;> simp [h']

lemma foldl_max_le (x : ℚ) (xs : List ℚ) :
    ∀ y ∈ x :: xs, y ≤ xs.foldl max x := by
  induction xs generalizing x with
  | nil => intro y hy; simp at hy; simp [hy, List.foldl]
  | cons z zs ih =>
    intro y hy
    simp only [List.foldl]
    have hbase : max x z ≤ List.foldl max (max x z) zs :=
      ih (max x z) (max x z) (List.mem_cons_self _ _)
    rcases List.mem_cons.mp hy with rfl | h
    · exact le_trans (le_max_left y z) hbase
    · rcases List.mem_cons.mp h with rfl | h'
      · exact le_trans (le_max_right x y) hbase
      · exact ih (max x z) y (List.mem_cons.mpr (Or.inr h'))

lemma listMax_mem {l : List ℚ} {v : ℚ} (h : listMax l = some v) : v ∈ l := by
  cases l with
  | nil => simp [listMax] at h
  | cons x xs =>
    simp only [listMax, Option.some.injEq] at h
    exact h ▸ foldl_max_mem x xs

lemma listMax_ge {l : List ℚ} {v : ℚ} (h : listMax l = some v) :
    ∀ y ∈ l, y ≤ v := by
  cases l with
  | nil => simp [listMax] at h
  | cons x xs =>
    simp only [listMax, Option.some.injEq] at h
    exact fun y hy => h ▸ foldl_max_le x xs y hy

lemma mapOption_mem {f : α → Option β} :
    ∀ {xs : List α} {ys : List β}, mapOption f xs = some ys →
      ∀ y ∈ ys, ∃ x ∈ xs, f x = some y := by
  intro xs
  induction xs with
  | nil => intro ys h y hy; simp [mapOption] at h; subst h; simp at hy
  | cons x xs ih =>
    intro ys h y hy
    simp only [mapOption] at h
    cases hfx : f x with
    | none => rw [hfx] at h; simp at h
    | some z =>
      rw [hfx] at h
      cases hrest : mapOption f xs with
      | none => rw [hrest] at h; simp at h
      | some zs =>
        rw [hrest] at h
        simp only [Option.some.injEq] at h
        subst h
        rcases List.mem_cons.mp hy with h' | h'
        · exact ⟨x, List.mem_cons_self _ _, h' ▸ hfx⟩
        · obtain ⟨w, hw, hfw⟩ := ih hrest y h'
          exact ⟨w, List.mem_cons.mpr (Or.inr hw), hfw⟩

lemma getD_of_get? {l : List α} {n : ℕ} {x d : α} (h : l.get? n = some x) :
    l.getD n d = x := by
  induction l generalizing n with
  | nil => simp at h
  | cons y ys ih =>
    cases n with
    | zero => simp at h; simp [List.getD, h]
    | succ m => simp only [List.get?] at h; simpa [List.getD] using ih h

lemma zipWith4_get? (f : α → β → γ → δ → ε) {as : List α} {bs : List β}
    {cs : List γ} {ds : List δ} {n : ℕ} {a : α} {b : β} {c : γ} {d : δ}
    (ha : as.get? n = some a) (hb : bs.get? n = some b)
    (hc : cs.get? n = some c) (hd : ds.get? n = some d) :
    (zipWith4 f as bs cs ds).get? n = some (f a b c d) := by
  induction as generalizing bs cs ds n with
  | nil => simp at ha
  | cons a0 as' ih =>
    cases bs with
    | nil => simp at hb
    | cons b0 bs' =>
      cases cs with
      | nil => simp at hc
      | cons c0 cs' =>
        cases ds with
        | nil => simp at hd
        | cons d0 ds' =>
          cases n with
          | zero =>
            simp only [List.get?, Option.some.injEq] at ha hb hc hd
            subst ha; subst hb; subst hc; subst hd
            rfl
          | succ m =>
            simp only [List.get?] at ha hb hc hd
            simpa [zipWith4] using ih ha hb hc hd

lemma interpUnit_mem (d m : ℚ) : 0 ≤ interpUnit d m ∧ interpUnit d m ≤ 1 := by
  unfold interpUnit
  split_ifs with h1 h2
  · norm_num
  · norm_num
  · push_neg at h1 h2
    have hm : 0 < m := lt_trans h1 h2
    constructor
    · exact div_nonneg (le_of_lt h1) (le_of_lt hm)
    · exact le_of_lt ((div_lt_one hm).mpr h2)

lemma interpUnit_mono {d1 d2 m : ℚ} (hm : 0 < m) (hd : d1 ≤ d2) :
    interpUnit d1 m ≤ interpUnit d2 m := by
  unfold interpUnit
  split_ifs with h1 h2 h3 h4 h5 h6 h7
  all_goals push_neg at *
  · exact le_refl 0
  · norm_num
  · exact div_nonneg (by linarith) (le_of_lt hm)
  · linarith
  · exact le_refl 1
  · exact le_of_lt ((one_lt_div hm).mpr (by linarith))
  · linarith
  · exact (div_le_one hm).mpr (by linarith)
  · exact (div_le_div_right hm).mpr hd

lemma distribute_parabolic_eq (mag d m : ℚ) :
    distribute mag d m .parabolic = (-(interpUnit d m ^ 2) + 1) * mag := rfl

lemma distribute_parabolic_mem {mag : ℚ} (d m : ℚ) (hmag : 0 ≤ mag) :
    0 ≤ distribute mag d m .parabolic ∧ distribute mag d m .parabolic ≤ mag := by
  obtain ⟨h0, h1⟩ := interpUnit_mem d m
  rw [distribute_parabolic_eq]
  constructor
  · nlinarith [mul_nonneg (mul_nonneg
      (by linarith : (0:ℚ) ≤ 1 - interpUnit d m)
      (by linarith : (0:ℚ) ≤ 1 + interpUnit d m)) hmag]
  · nlinarith [mul_nonneg hmag (sq_nonneg (interpUnit d m))]

lemma distribute_parabolic_anti {mag m d1 d2 : ℚ} (hmag : 0 ≤ mag) (hm : 0 < m)
    (hd : d1 ≤ d2) :
    distribute mag d2 m .parabolic ≤ distribute mag d1 m .parabolic := by
  obtain ⟨h10, h11⟩ := interpUnit_mem d1 m
  obtain ⟨h20, h21⟩ := interpUnit_mem d2 m
  have hmono := interpUnit_mono hm hd
  rw [distribute_parabolic_eq, distribute_parabolic_eq]
  nlinarith [mul_nonneg (mul_nonneg (sub_nonneg.mpr hmono)
    (by linarith : (0:ℚ) ≤ interpUnit d2 m + interpUnit d1 m)) hmag]

lemma magnitude_matrix_local_mem (ws : ℚ) {mag : ℚ} (d : ℚ) (hmag : 0 ≤ mag) :
    0 ≤ magnitude_matrix_local ws mag d ∧ magnitude_matrix_local ws mag d ≤ mag := by
  unfold magnitude_matrix_local
  split_ifs <;> exact distribute_parabolic_mem _ _ hmag

/-! ### Claim theorems -/

/-- C3: for every dry-bulb temperature, relative humidity, effectiveness
and pressure, `evaporative_cooling_effect` returns
`(DBT - e * (DBT - WBT), RH * (1 - e) + 100 * e)`, except that when the
adjusted relative humidity would exceed 100 it returns the wet-bulb
temperature and 100; at `e = 0` (with valid `RH ≤ 100`) the inputs are
returned exactly unchanged, and at `e = 1` the result is the wet-bulb
temperature at 100 percent humidity. -/
theorem C3_evaporative_cooling_effect (wbt : ℚ → ℚ → ℚ → ℚ) (dbt rh e : ℚ)
    (pressure : Option ℚ) :
    (rh * (1 - e) + e * 100 ≤ 100 →
      evaporative_cooling_effect wbt dbt rh e pressure
        = (dbt - e * (dbt - wbt dbt rh (pressure.getD 101325)),
           rh * (1 - e) + e * 100))
    ∧ (rh * (1 - e) + e * 100 > 100 →
      evaporative_cooling_effect wbt dbt rh e pressure
        = (wbt dbt rh (pressure.getD 101325), 100))
    ∧ (rh ≤ 100 → evaporative_cooling_effect wbt dbt rh 0 pressure = (dbt, rh))
    ∧ evaporative_cooling_effect wbt dbt rh 1 pressure
        = (wbt dbt rh (pressure.getD 101325), 100) := by
  unfold evaporative_cooling_effect
  refine ⟨fun hle => ?_, fun hgt => ?_, fun hrh => ?_, ?_⟩
  · rw [if_neg (by simpa using not_lt.mpr hle)]
    exact Prod.ext (by ring) rfl
  · rw [if_pos (by simpa using hgt)]
  · rw [if_neg (not_lt.mpr (by linarith))]
    exact Prod.ext (by ring) (by ring)
  · rw [if_neg (not_lt.mpr (by linarith))]
    exact Prod.ext (by ring) (by ring)

/-- Witness for C3 at a concrete wet-bulb function and concrete inputs. -/
theorem C3_evaporative_cooling_effect_witness :
    evaporative_cooling_effect (fun _ _ _ => 10) 30 50 0 none = (30, 50)
    ∧ evaporative_cooling_effect (fun _ _ _ => 10) 30 50 1 none = (10, 100) := by
  have h := C3_evaporative_cooling_effect (fun _ _ _ => 10) 30 50 0 none
  have h1 := C3_evaporative_cooling_effect (fun _ _ _ => 10) 30 50 1 none
  exact ⟨h.2.2.1 (by norm_num), h1.2.2.2⟩

/-- C5: the parabolic radial decay `magnitude_matrix_local` is monotonically
non-increasing in distance over distances at least 0 for non-negative
magnitude, equals the full source magnitude at distance 0, and equals 0 at
every distance at least the maximum-influence radius, which is 5 when the
wind speed is 0 and wind speed times 10 otherwise. -/
theorem C5_radial_decay (ws mag d d1 d2 : ℚ) (hmag : 0 ≤ mag) (hws : 0 ≤ ws) :
    (0 ≤ d1 → d1 ≤ d2 →
      magnitude_matrix_local ws mag d2 ≤ magnitude_matrix_local ws mag d1)
    ∧ magnitude_matrix_local ws mag 0 = mag
    ∧ (ws = 0 → 5 ≤ d → magnitude_matrix_local ws mag d = 0)
    ∧ (ws ≠ 0 → ws * 10 ≤ d → magnitude_matrix_local ws mag d = 0) := by
  refine ⟨fun _ hd12 => ?_, ?_, fun hws0 hd5 => ?_, fun hwsne hd10 => ?_⟩
  · unfold magnitude_matrix_local
    split_ifs with h0
    · exact distribute_parabolic_anti hmag (by norm_num) hd12
    · have : 0 < ws := lt_of_le_of_ne hws (Ne.symm h0)
      exact distribute_parabolic_anti hmag (by linarith) hd12
  · unfold magnitude_matrix_local
    have h5 : interpUnit 0 5 = 0 := by unfold interpUnit; norm_num
    have h10 : interpUnit 0 (ws * 10) = 0 := by unfold interpUnit; norm_num
    split_ifs <;> rw [distribute_parabolic_eq] <;> simp [h5, h10]
  · subst hws0
    rw [magnitude_matrix_local, if_pos rfl, distribute_parabolic_eq]
    have : interpUnit d 5 = 1 := by
      unfold interpUnit
      rw [if_neg (by linarith), if_pos hd5]
    rw [this]; ring
  · rw [magnitude_matrix_local, if_neg hwsne, distribute_parabolic_eq]
    have hpos : 0 < ws := lt_of_le_of_ne hws (Ne.symm hwsne)
    have : interpUnit d (ws * 10) = 1 := by
      unfold interpUnit
      rw [if_neg (by nlinarith), if_pos hd10]
    rw [this]; ring

/-- Witness for C5 at the spec scenario: magnitude one half, calm wind,
radius 5; distances 0, 5 and 10 give one half, 0 and 0. -/
theorem C5_radial_decay_witness :
    magnitude_matrix_local 0 (1/2) 0 = 1/2
    ∧ magnitude_matrix_local 0 (1/2) 5 = 0
    ∧ magnitude_matrix_local 0 (1/2) 10 = 0
    ∧ magnitude_matrix_local 0 (1/2) 7 ≤ magnitude_matrix_local 0 (1/2) 3 := by
  have h := C5_radial_decay 0 (1/2) 5 3 7 (by norm_num) (le_refl 0)
  have h10 := C5_radial_decay 0 (1/2) 10 3 7 (by norm_num) (le_refl 0)
  exact ⟨h.2.1, h.2.2.1 rfl (by norm_num), h10.2.2.1 rfl (by norm_num),
    h.1 (by norm_num) (by norm_num)⟩

/-- C9: loading moisture sources from an absent file does not raise: a
warning is emitted and the empty source list is returned; a present
non-empty file loads without warning; a present file with zero sources
raises a value error (uncaught). -/
theorem C9_load_moisture_sources_missing_file :
    load_moisture_sources none = .ok (true, ([] : List MSource))
    ∧ (∀ srcs : List MSource, srcs ≠ [] →
        load_moisture_sources (some srcs) = .ok (false, srcs))
    ∧ load_moisture_sources (some []) = .error "No moisture sources found" := by
  refine ⟨rfl, fun srcs hne => ?_, rfl⟩
  simp [load_moisture_sources, List.length_eq_zero, hne]

/-- Witness for C9 at a concrete non-empty source list. -/
theorem C9_load_moisture_sources_witness :
    load_moisture_sources (some [((1 : ℚ), [((0 : ℚ), (0 : ℚ))])])
      = .ok (false, [((1 : ℚ), [((0 : ℚ), (0 : ℚ))])]) :=
  C9_load_moisture_sources_missing_file.2.1 _ (by simp)

/-- C8 (code bug): with no cache file and an empty moisture-source list,
the `dry_bulb_temperature_matrix` and `relative_humidity_matrix` accessors
compute the broadcast matrix and write it to the cache file, but the branch
has no return statement, so the Python return value is `None` rather than
the broadcast matrix the claim (and the accessor docstring) promises. -/
theorem C8_dbt_rh_missing_return :
    dry_bulb_temperature_matrix none 0 [20] 2 [[1]] = (none, some [[20, 20]])
    ∧ relative_humidity_matrix none 0 [50] 2 [[2]] = (none, some [[50, 50]]) := by
  constructor <;> rfl

/-- C7 (amended): the MRT, DBT, RH and UTCI accessors check their named
cache file first and, when present, return its contents verbatim with no
recomputation; the wind-speed accessor alone never reads its cache file:
it always recomputes the broadcast matrix and overwrites the file. -/
theorem C7_amended_cache_discipline (m : List (List (Option ℚ)))
    (m2 : List (List ℚ)) (unshaded shaded : List ℚ) (irr : List (List ℚ))
    (skyView ghr : List ℚ) (nSources : ℕ) (dbtS rhS wsS : List ℚ) (nPts : ℕ)
    (mdbt mrh : List (List ℚ)) (utci : ℚ → ℚ → ℚ → ℚ → ℚ)
    (a b c d : List (List ℚ)) (cache : Option (List (List ℚ))) :
    mean_radiant_temperature_matrix (some m) unshaded shaded irr skyView ghr
      = (m, some m)
    ∧ (dry_bulb_temperature_matrix (some m2) nSources dbtS nPts mdbt).1 = some m2
    ∧ (relative_humidity_matrix (some m2) nSources rhS nPts mrh).1 = some m2
    ∧ universal_thermal_climate_index_matrix (some m2) utci a b c d = (m2, some m2)
    ∧ wind_speed_matrix cache wsS nPts
        = (broadcast_series wsS nPts, some (broadcast_series wsS nPts)) :=
  ⟨rfl, rfl, rfl, rfl, rfl⟩

/-- Counterexample to C7 as stated: the wind-speed accessor does not load a
present cache file; with the file holding the matrix `[[99]]` and a
wind-speed series `[3]` over one grid point, it returns `[[3]]`, not the
cached matrix. -/
theorem C7_counterexample :
    wind_speed_matrix (some [[99]]) [3] 1 = ([[3]], some [[3]])
    ∧ ([[(3 : ℚ)]] ≠ [[99]]) := by
  constructor
  · rfl
  · decide

/-- C4 (amended): for bearings and wind directions in `[0, 360)`, the
angular gate passes every point at wind speed 0 and always passes a point
whose bearing equals the wind direction; at non-zero wind speed a point
whose bearing is 180 degrees from the wind direction (circularly) is always
excluded, and the gate passes exactly when the bearing lies strictly within
6 degrees of the wind direction without wrap-around, except that for wind
directions below 6 degrees the upper wrap branch also passes bearings above
`354 + wd`, while for wind directions above 354 degrees the wrap condition
compares against `wd - 360 - wd = -360` and therefore never passes any
wrapped bearing. -/
lemma angle_mask_local_high {ws wd : ℚ} (b : ℚ) (hne : ws ≠ 0)
    (hA : wd > 360 - (12/2 : ℚ)) :
    angle_mask_local ws wd b
      = (decide (b > wd - 12/2) || decide (b < wd - 360 - wd)) := by
  unfold angle_mask_local
  rw [if_neg hne, if_pos hA]

lemma angle_mask_local_low {ws wd : ℚ} (b : ℚ) (hne : ws ≠ 0)
    (hA : ¬(wd > 360 - (12/2 : ℚ))) (hB : wd < 0 + (12/2 : ℚ)) :
    angle_mask_local ws wd b
      = (decide (b < wd + 12/2) || decide (b > 360 + wd - 12/2)) := by
  unfold angle_mask_local
  rw [if_neg hne, if_neg hA, if_pos hB]

lemma angle_mask_local_mid {ws wd : ℚ} (b : ℚ) (hne : ws ≠ 0)
    (hA : ¬(wd > 360 - (12/2 : ℚ))) (hB : ¬(wd < 0 + (12/2 : ℚ))) :
    angle_mask_local ws wd b
      = (decide (b < wd + 12/2) && decide (b > wd - 12/2)) := by
  unfold angle_mask_local
  rw [if_neg hne, if_neg hA, if_neg hB]

lemma angle_mask_local_iff {ws wd : ℚ} (b : ℚ) (hne : ws ≠ 0) (hb0 : 0 ≤ b) :
    (angle_mask_local ws wd b = true ↔
      (360 - 6 < wd ∧ wd - 6 < b)
      ∨ (wd < 6 ∧ (b < wd + 6 ∨ 360 + wd - 6 < b))
      ∨ (6 ≤ wd ∧ wd ≤ 360 - 6 ∧ wd - 6 < b ∧ b < wd + 6)) := by
  by_cases hA : wd > 360 - (12/2 : ℚ)
  · rw [angle_mask_local_high b hne hA]
    simp only [Bool.or_eq_true, decide_eq_true_eq]
    constructor
    · rintro (h | h)
      · exact Or.inl ⟨by linarith, by linarith⟩
      · linarith
    · rintro (⟨_, h⟩ | ⟨h, _⟩ | ⟨_, h4, _, _⟩)
      · left; linarith
      · linarith
      · linarith
  · by_cases hB : wd < 0 + (12/2 : ℚ)
    · rw [angle_mask_local_low b hne hA hB]
      simp only [Bool.or_eq_true, decide_eq_true_eq]
      constructor
      · rintro (h | h)
        · exact Or.inr (Or.inl ⟨by linarith, Or.inl (by linarith)⟩)
        · exact Or.inr (Or.inl ⟨by linarith, Or.inr (by linarith)⟩)
      · rintro (⟨h, _⟩ | ⟨_, h | h⟩ | ⟨h3, _, _, _⟩)
        · linarith
        · left; linarith
        · right; linarith
        · linarith
    · rw [angle_mask_local_mid b hne hA hB]
      simp only [Bool.and_eq_true, decide_eq_true_eq]
      push_neg at hA hB
      constructor
      · rintro ⟨hu, hl⟩
        exact Or.inr (Or.inr ⟨by linarith, by linarith, by linarith, by linarith⟩)
      · rintro (⟨h, _⟩ | ⟨h, _⟩ | ⟨_, _, hl, hu⟩)
        · linarith
        · linarith
        · exact ⟨by linarith, by linarith⟩

/-- C4 (amended): for bearings and wind directions in `[0, 360)`, the
angular gate passes every point at wind speed 0 and always passes a point
whose bearing equals the wind direction; at non-zero wind speed a point
whose bearing is 180 degrees from the wind direction (circularly) is always
excluded, and the gate passes exactly when the bearing lies strictly within
6 degrees of the wind direction without wrap-around, except that for wind
directions below 6 degrees the upper wrap branch also passes bearings above
`354 + wd`, while for wind directions above 354 degrees the wrap condition
compares against `wd - 360 - wd = -360` and therefore never passes any
wrapped bearing. -/
theorem C4_amended_angle_mask (ws wd b : ℚ) (hwd0 : 0 ≤ wd) (hwd1 : wd < 360)
    (hb0 : 0 ≤ b) (hb1 : b < 360) :
    (ws = 0 → angle_mask_local ws wd b = true)
    ∧ angle_mask_local ws wd wd = true
    ∧ (ws ≠ 0 →
        angle_mask_local ws wd (if wd < 180 then wd + 180 else wd - 180) = false)
    ∧ (ws ≠ 0 → (angle_mask_local ws wd b = true ↔
        (360 - 6 < wd ∧ wd - 6 < b)
        ∨ (wd < 6 ∧ (b < wd + 6 ∨ 360 + wd - 6 < b))
        ∨ (6 ≤ wd ∧ wd ≤ 360 - 6 ∧ wd - 6 < b ∧ b < wd + 6))) := by
  refine ⟨fun h0 => ?_, ?_, fun hne => ?_, fun hne => angle_mask_local_iff b hne hb0⟩
  · simp [angle_mask_local, h0]
  · by_cases h0 : ws = 0
    · simp [angle_mask_local, h0]
    · rw [angle_mask_local_iff wd h0 hwd0]
      by_cases hA : 360 - 6 < wd
      · exact Or.inl ⟨hA, by linarith⟩
      · by_cases hB : wd < 6
        · exact Or.inr (Or.inl ⟨hB, Or.inl (by linarith)⟩)
        · exact Or.inr (Or.inr ⟨by linarith, by linarith, by linarith, by linarith⟩)
  · by_cases hd : wd < 180
    · rw [if_pos hd, ← Bool.not_eq_true]
      rw [angle_mask_local_iff (wd + 180) hne (by linarith)]
      rintro (⟨h, h'⟩ | ⟨h, h' | h'⟩ | ⟨h, h', h'', h'''⟩) <;> linarith
    · rw [if_neg hd, ← Bool.not_eq_true]
      rw [angle_mask_local_iff (wd - 180) hne (by linarith)]
      rintro (⟨h, h'⟩ | ⟨h, h' | h'⟩ | ⟨h, h', h'', h'''⟩) <;> linarith

/-- Witness for C4 at wind speed 1, wind direction 90 and bearing 92. -/
theorem C4_amended_angle_mask_witness :
    angle_mask_local 1 90 92 = true ∧ angle_mask_local 1 90 90 = true := by
  have h := C4_amended_angle_mask 1 90 92 (by norm_num) (by norm_num)
    (by norm_num) (by norm_num)
  refine ⟨(h.2.2.2 (by norm_num)).mpr ?_, h.2.1⟩
  right; right
  norm_num

/-- Counterexample to C4 as stated: at wind speed 1 and wind direction 359,
a point at bearing 1 is within 2 degrees of the wind direction measured
across the 0/360 boundary, so the claim includes it, but the gate excludes
it (its wrap branch compares bearings against `wd - 360 - wd = -360`). -/
theorem C4_counterexample :
    angle_mask_local 1 359 1 = false ∧ spec_angular_pass 1 359 1 := by
  constructor
  · norm_num [angle_mask_local]
  · norm_num [spec_angular_pass]

/-- C6: the per-point effectiveness from one single-point moisture source
is the radial decay value where the angular mask passes and zero where it
does not; and for two sources with per-point effectivenesses `e1` and `e2`
the combined per-point effectiveness is their maximum, which is strictly
less than their sum whenever both are positive (sources do not add). -/
theorem C6_masked_radial_and_pointwise_max (ws wd mag d bearing m1 m2 : ℚ)
    (db1 db2 : List (ℚ × ℚ)) (e1 e2 : ℚ)
    (h1 : source_effectiveness ws wd m1 db1 = some e1)
    (h2 : source_effectiveness ws wd m2 db2 = some e2) :
    source_effectiveness ws wd mag [(d, bearing)]
      = some (if angle_mask_local ws wd bearing
          then magnitude_matrix_local ws mag d else 0)
    ∧ combined_effectiveness ws wd [(m1, db1), (m2, db2)] = some (max e1 e2)
    ∧ (0 < e1 → 0 < e2 → max e1 e2 < e1 + e2) := by
  refine ⟨rfl, ?_, fun hp1 hp2 => ?_⟩
  · have hm : mapOption (fun s => source_effectiveness ws wd s.1 s.2)
        [(m1, db1), (m2, db2)] = some [e1, e2] := by
      simp only [mapOption, h1, h2]
    unfold combined_effectiveness
    rw [hm]
    rfl
  · rcases max_choice e1 e2 with h | h <;> rw [h] <;> linarith

/-- Witness for C6: two single-point sources at the same grid point in calm
wind, with magnitudes one half and one quarter at distance 0; the combined
effectiveness is one half, the pointwise maximum. -/
theorem C6_masked_radial_and_pointwise_max_witness :
    source_effectiveness 0 0 (1/3) [((0 : ℚ), (0 : ℚ))]
      = some (if angle_mask_local 0 0 0 then magnitude_matrix_local 0 (1/3) 0 else 0)
    ∧ combined_effectiveness 0 0 [((1/2 : ℚ), [((0 : ℚ), (0 : ℚ))]),
        ((1/4 : ℚ), [((0 : ℚ), (0 : ℚ))])] = some (max (1/2) (1/4))
    ∧ max (1/2 : ℚ) (1/4) < 1/2 + 1/4 := by
  have he1 : source_effectiveness 0 0 (1/2) [((0 : ℚ), (0 : ℚ))] = some (1/2) := by
    norm_num [source_effectiveness, listMax, angle_mask_local,
      magnitude_matrix_local, distribute, interpUnit]
  have he2 : source_effectiveness 0 0 (1/4) [((0 : ℚ), (0 : ℚ))] = some (1/4) := by
    norm_num [source_effectiveness, listMax, angle_mask_local,
      magnitude_matrix_local, distribute, interpUnit]
  have h := C6_masked_radial_and_pointwise_max 0 0 (1/3) 0 0 (1/2) (1/4)
    [((0 : ℚ), (0 : ℚ))] [((0 : ℚ), (0 : ℚ))] (1/2) (1/4) he1 he2
  exact ⟨h.1, h.2.1, h.2.2 (by norm_num) (by norm_num)⟩

lemma source_effectiveness_mem {ws wd mag M e : ℚ} {dbs : List (ℚ × ℚ)}
    (hmag0 : 0 ≤ mag) (hmagM : mag ≤ M)
    (he : source_effectiveness ws wd mag dbs = some e) : 0 ≤ e ∧ e ≤ M := by
  have hmem := listMax_mem he
  obtain ⟨db, _, hdb⟩ := List.mem_map.mp hmem
  by_cases hmask : angle_mask_local ws wd db.2
  · rw [if_pos hmask] at hdb
    obtain ⟨h0, h1⟩ := magnitude_matrix_local_mem ws db.1 hmag0
    exact hdb ▸ ⟨h0, le_trans h1 hmagM⟩
  · rw [if_neg hmask] at hdb
    exact hdb ▸ ⟨le_refl 0, le_trans hmag0 hmagM⟩

/-- C10: with all source magnitudes in `[0, M]`, every defined entry of the
per-wind-state moisture field lies in `[0, M]` (the normalized distance is
clamped to `[0, 1]` before the decay curve and masked-out points are 0),
and every entry of the expanded hourly moisture matrix, which only indexes
rows of the per-wind-state field, obeys the same bound; with magnitudes in
`[0, 1]` the effectiveness passed to the evaporative-cooling adjustment is
therefore in `[0, 1]`. -/
theorem C10_effectiveness_bounds (ws wd M v : ℚ) (sources : List MSource)
    (hM : ∀ s ∈ sources, 0 ≤ s.1 ∧ s.1 ≤ M)
    (hv : combined_effectiveness ws wd sources = some v) :
    (0 ≤ v ∧ v ≤ M)
    ∧ ∀ (uniqueRows : List (List ℚ)) (indices : List ℕ) (row : List ℚ) (x : ℚ),
        (∀ r ∈ uniqueRows, ∀ y ∈ r, 0 ≤ y ∧ y ≤ M) →
        row ∈ moisture_matrix_from_unique uniqueRows indices → x ∈ row →
        0 ≤ x ∧ x ≤ M := by
  constructor
  · unfold combined_effectiveness at hv
    cases hmo : mapOption (fun s => source_effectiveness ws wd s.1 s.2) sources with
    | none => rw [hmo] at hv; exact absurd hv (by simp)
    | some es =>
      rw [hmo] at hv
      simp only [Option.some_bind] at hv
      have hvmem := listMax_mem hv
      obtain ⟨s, hs, hse⟩ := mapOption_mem hmo v hvmem
      exact source_effectiveness_mem (hM s hs).1 (hM s hs).2 hse
  · intro uniqueRows indices row x hbound hrow hx
    obtain ⟨i, _, hri⟩ := List.mem_map.mp hrow
    by_cases hi : i < uniqueRows.length
    · have : uniqueRows.getD i [] ∈ uniqueRows := by
        rw [List.getD_eq_getElem _ _ hi]
        exact List.getElem_mem hi
      exact hbound _ (hri ▸ this) x hx
    · rw [List.getD_eq_default _ _ (le_of_not_lt hi)] at hri
      rw [← hri] at hx
      simp at hx

/-- Witness for C10 at one source of magnitude one half in calm wind and a
one-row unique field. -/
theorem C10_effectiveness_bounds_witness :
    ((0 : ℚ) ≤ 1/2 ∧ (1/2 : ℚ) ≤ 1)
    ∧ ∀ (uniqueRows : List (List ℚ)) (indices : List ℕ) (row : List ℚ) (x : ℚ),
        (∀ r ∈ uniqueRows, ∀ y ∈ r, 0 ≤ y ∧ y ≤ 1) →
        row ∈ moisture_matrix_from_unique uniqueRows indices → x ∈ row →
        0 ≤ x ∧ x ≤ 1 := by
  have hv : combined_effectiveness 0 0 [((1/2 : ℚ), [((0 : ℚ), (0 : ℚ))])]
      = some (1/2) := by
    norm_num [combined_effectiveness, mapOption, source_effectiveness, listMax,
      angle_mask_local, magnitude_matrix_local, distribute, interpUnit]
  exact C10_effectiveness_bounds 0 0 1 (1/2) [((1/2 : ℚ), [((0 : ℚ), (0 : ℚ))])]
    (by norm_num) hv

lemma map_get?_eq {f : α → β} {l : List α} {n : ℕ} {x : α}
    (h : l.get? n = some x) : (l.map f).get? n = some (f x) := by
  induction l generalizing n with
  | nil => simp at h
  | cons y ys ih =>
    cases n with
    | zero => simp at h; simp [h]
    | succ m => simp only [List.get?] at h ⊢; exact ih h

/-- C1 (amended): at a sun-down hour, the raw interpolated value (the
night-time entry of `pd.concat([nighttime, daytime]).sort_index()`, before
the final `.interpolate().ewm(span=1.5).mean()` pass) is exactly the linear
blend of the shaded and unshaded values at the static sky-view fraction of
the point (sky view 0 gives the shaded value, 100 the unshaded value), and
therefore lies between their minimum and maximum inclusive; the returned
matrix then applies the exponentially weighted mean along the hour axis,
which can move the final value outside that envelope. -/
theorem C1_amended_night_blend (unshaded shaded : List ℚ) (irr : List (List ℚ))
    (skyView : List ℚ) (sunUp : List Bool) (h p : ℕ) (u s sv : ℚ)
    (irrRow : List ℚ) (hu : unshaded.get? h = some u)
    (hs : shaded.get? h = some s) (hirr : irr.get? h = some irrRow)
    (hsun : sunUp.get? h = some false) (hsv : skyView.get? p = some sv)
    (hsv0 : 0 ≤ sv) (hsv1 : sv ≤ 100) :
    matEntry (raw_interpolated unshaded shaded irr skyView sunUp) h p
      = some (s + sv / 100 * (u - s))
    ∧ min s u ≤ s + sv / 100 * (u - s) ∧ s + sv / 100 * (u - s) ≤ max s u := by
  have hrow : (raw_interpolated unshaded shaded irr skyView sunUp).get? h
      = some (skyView.map (fun sv2 => some (s + sv2 / 100 * (u - s)))) := by
    have hz := zipWith4_get?
      (fun (u : ℚ) (s : ℚ) (irrRow : List ℚ) (up : Bool) =>
        if up then
          match listMin irrRow, listMax irrRow with
          | some lo, some hi =>
            irrRow.map (fun v =>
              if hi = lo then none
              else some ((v - lo) / (hi - lo) * (max s u - min s u) + min s u))
          | _, _ => []
        else
          skyView.map (fun sv2 => some (s + sv2 / 100 * (u - s))))
      hu hs hirr hsun
    simpa [raw_interpolated] using hz
  have hcell : (skyView.map (fun sv2 => some (s + sv2 / 100 * (u - s)))).get? p
      = some (some (s + sv / 100 * (u - s))) := map_get?_eq hsv
  refine ⟨?_, ?_⟩
  · unfold matEntry
    rw [getD_of_get? hrow, getD_of_get? hcell]
  · have h100 : sv / 100 ≤ 1 := (div_le_one (by norm_num)).mpr hsv1
    have h0 : (0 : ℚ) ≤ sv / 100 := div_nonneg hsv0 (by norm_num)
    rcases le_total s u with hle | hle
    · rw [min_eq_left hle, max_eq_right hle]
      constructor
      · nlinarith [mul_nonneg h0 (sub_nonneg.mpr hle)]
      · nlinarith [mul_nonneg (sub_nonneg.mpr h100) (sub_nonneg.mpr hle)]
    · rw [min_eq_right hle, max_eq_left hle]
      constructor
      · nlinarith [mul_nonneg (sub_nonneg.mpr h100) (sub_nonneg.mpr hle)]
      · nlinarith [mul_nonneg h0 (sub_nonneg.mpr hle)]

/-- Witness for C1 at a one-hour, one-point grid with sky view 50. -/
theorem C1_amended_night_blend_witness :
    matEntry (raw_interpolated [7] [3] [[0]] [50] [false]) 0 0
      = some (3 + 50 / 100 * (7 - 3))
    ∧ min (3 : ℚ) 7 ≤ 3 + 50 / 100 * (7 - 3)
    ∧ 3 + 50 / 100 * (7 - 3) ≤ max (3 : ℚ) 7 :=
  C1_amended_night_blend [7] [3] [[0]] [50] [false] 0 0 7 3 50 [0]
    rfl rfl rfl rfl rfl (by norm_num) (by norm_num)

/-- Counterexample to C1 as stated: two hours, two points, sun up then sun
down (global horizontal radiation 5 then 0), shaded and unshaded both 0 at
the sun-down hour.  The claim requires the returned sun-down entry to lie
in `[min 0 0, max 0 0] = [0, 0]`, but the exponentially weighted mean drags
the large daytime value of point 1 into hour 1, giving 50/3. -/
theorem C1_counterexample :
    matEntry ((mean_radiant_temperature_matrix none [100, 0] [0, 0]
        [[0, 10], [0, 0]] [0, 50] [5, 0]).1) 1 1 = some (50 / 3)
    ∧ ¬(min (0 : ℚ) 0 ≤ 50 / 3 ∧ (50 / 3 : ℚ) ≤ max (0 : ℚ) 0) := by
  constructor
  · norm_num [mean_radiant_temperature_matrix, interpolate_between_unshaded_shaded,
      raw_interpolated, zipWith4, listMin, listMax, columnOf, interpolate_na,
      lastValidBefore, firstValidAfter, ewm_mean_col, ewm_go, matEntry,
      List.range_succ, List.enum]
  · norm_num

lemma ewm_go_spec (xs : List ℚ) :
    ∀ (num den : ℚ) (t : ℕ), t < xs.length →
      (ewm_go num den (xs.map some)).getD t none =
        if den * (1/5)^(t+1) + ∑ i in Finset.range (t+1), (1/5 : ℚ)^i = 0 then none
        else some ((num * (1/5)^(t+1)
            + ∑ i in Finset.range (t+1), (1/5 : ℚ)^i * xs.getD (t - i) 0)
          / (den * (1/5)^(t+1) + ∑ i in Finset.range (t+1), (1/5 : ℚ)^i)) := by
  induction xs with
  | nil => intro num den t ht; simp at ht
  | cons x rest ih =>
    intro num den t ht
    cases t with
    | zero =>
      simp only [List.map_cons, ewm_go, List.getD_cons_zero, zero_add,
        Finset.sum_range_one, Nat.sub_zero, pow_zero, pow_one, one_mul]
    | succ t2 =>
      have hlen : t2 < rest.length := by simpa using ht
      have hstep : (ewm_go num den ((x :: rest).map some)).getD (t2 + 1) none
          = (ewm_go (num * (1/5) + x) (den * (1/5) + 1) (rest.map some)).getD t2 none := by
        simp only [List.map_cons, ewm_go, List.getD_cons_succ]
      rw [hstep, ih (num * (1/5) + x) (den * (1/5) + 1) t2 hlen]
      have hS : den * (1/5 : ℚ)^(t2 + 1 + 1)
            + ∑ i in Finset.range (t2 + 1 + 1), (1/5 : ℚ)^i
          = (den * (1/5) + 1) * (1/5 : ℚ)^(t2 + 1)
            + ∑ i in Finset.range (t2 + 1), (1/5 : ℚ)^i := by
        rw [Finset.sum_range_succ]
        ring
      have hT : num * (1/5 : ℚ)^(t2 + 1 + 1)
            + ∑ i in Finset.range (t2 + 1 + 1),
                (1/5 : ℚ)^i * (x :: rest).getD (t2 + 1 - i) 0
          = (num * (1/5) + x) * (1/5 : ℚ)^(t2 + 1)
            + ∑ i in Finset.range (t2 + 1), (1/5 : ℚ)^i * rest.getD (t2 - i) 0 := by
        rw [Finset.sum_range_succ]
        have hcongr : ∀ i ∈ Finset.range (t2 + 1),
            (1/5 : ℚ)^i * (x :: rest).getD (t2 + 1 - i) 0
              = (1/5 : ℚ)^i * rest.getD (t2 - i) 0 := by
          intro i hi
          have hi2 : i ≤ t2 := Nat.lt_succ_iff.mp (Finset.mem_range.mp hi)
          rw [show t2 + 1 - i = (t2 - i) + 1 from by omega, List.getD_cons_succ]
        rw [Finset.sum_congr rfl hcongr]
        simp only [Nat.sub_self, List.getD_cons_zero]
        ring
      rw [hS, hT]

/-- C2 (amended): the transition smoother of the spatial interpolation is
not conditional: the raw interpolated matrix is postprocessed (after linear
NaN filling) by an unconditional exponentially weighted moving average with
span 1.5 at every hour, so the output at hour `t` is the weighted mean of
all raw values up to `t` with weights `(1/5)^age`; no drop threshold,
forward window or span 1.25 is involved (that conditional smoother exists
in the typology module, not in `spatial.py`). -/
theorem C2_amended_unconditional_ewm (xs : List ℚ) (t : ℕ) (ht : t < xs.length) :
    (ewm_mean_col (xs.map some)).getD t none
      = some ((∑ i in Finset.range (t + 1), (1/5 : ℚ)^i * xs.getD (t - i) 0)
        / (∑ i in Finset.range (t + 1), (1/5 : ℚ)^i)) := by
  have hpos : 0 < ∑ i in Finset.range (t + 1), (1/5 : ℚ)^i :=
    Finset.sum_pos (fun i _ => pow_pos (by norm_num) i) (by simp)
  have h := ewm_go_spec xs 0 0 t ht
  simp only [zero_mul, zero_add] at h
  rw [ewm_mean_col, h, if_neg hpos.ne']

/-- Witness for C2 on the two-value series `[2, 7]` at hour 1. -/
theorem C2_amended_unconditional_ewm_witness :
    (ewm_mean_col ([2, 7].map some)).getD 1 none
      = some ((∑ i in Finset.range 2, (1/5 : ℚ)^i * [2, 7].getD (1 - i) 0)
        / (∑ i in Finset.range 2, (1/5 : ℚ)^i)) :=
  C2_amended_unconditional_ewm [2, 7] 1 (by norm_num)

/-- Counterexample to C2 as stated: two hours, two points, sun up then sun
down; the raw series of point 1 rises from 0 to 100 (no hour-over-hour drop
of more than 10), so the claim requires the raw value 100 to pass through
unchanged at hour 1, but the returned entry is the span-1.5 exponentially
weighted mean 250/3. -/
theorem C2_counterexample :
    matEntry (raw_interpolated [0, 100] [0, 100] [[0, 10], [0, 0]] [0, 0]
        [true, false]) 0 1 = some 0
    ∧ matEntry (raw_interpolated [0, 100] [0, 100] [[0, 10], [0, 0]] [0, 0]
        [true, false]) 1 1 = some 100
    ∧ ¬((100 : ℚ) - 0 < -10)
    ∧ matEntry (interpolate_between_unshaded_shaded [0, 100] [0, 100]
        [[0, 10], [0, 0]] [0, 0] [true, false]) 1 1 = some (250 / 3)
    ∧ (250 / 3 : ℚ) ≠ 100 := by
  refine ⟨?_, ?_, by norm_num, ?_, by norm_num⟩
  · norm_num [raw_interpolated, zipWith4, listMin, listMax, matEntry]
  · norm_num [raw_interpolated, zipWith4, listMin, listMax, matEntry]
  · norm_num [interpolate_between_unshaded_shaded, raw_interpolated, zipWith4,
      listMin, listMax, columnOf, interpolate_na, lastValidBefore,
      firstValidAfter, ewm_mean_col, ewm_go, matEntry, List.range_succ,
      List.enum]

end LBT
